import Mathlib

/-!
Verification development for a small relational CRUD service (`src/app.py`).

The service exposes users, posts and comments over HTTP, backed by a
relational database. We embed the database state shallowly: each table is a
list of `(id, fields)` rows together with the auto-increment counter, and
each request handler is a Lean function from the database state (plus the
validated request input) to a new state and/or a response, mirroring the
single parameterized SQL statement each handler runs.

Modelling conventions, matching the code:
* `INSERT` appends a row keyed by the auto-increment counter and returns
  that id (`cursor.lastrowid`).
* `SELECT ... WHERE id = %s` + `fetchone` is `find?` on the row list.
* `UPDATE ... WHERE id = %s` rewrites every row whose key matches; the
  driver's `cursor.rowcount` is modelled as the number of rows matched by
  the `WHERE` clause (the row-count check the handlers use to synthesize
  404s, per the service's contract that zero affected rows means the
  target id does not exist).
* `DELETE ... WHERE id = %s` drops the matching rows, `rowcount` again
  counting the matched rows.
* The handlers commit before checking `rowcount`, so mutating handlers
  return the committed state together with the `Except` outcome.
* `created_at` for comments is assigned by the database at insert time; we
  pass it as an explicit `Nat` clock argument.
-/

/-- Request body of `POST`/`PUT` `/users` (pydantic model `UserCreate`). -/
structure UserCreate where
  name : String
  email : String
deriving Repr, DecidableEq

/-- Request body of `POST`/`PUT` `/posts` (pydantic model `PostCreate`). -/
structure PostCreate where
  user_id : Nat
  title : String
  body : String
deriving Repr, DecidableEq

/-- Request body of `POST`/`PUT` `/comments` (pydantic model `CommentCreate`). -/
structure CommentCreate where
  post_id : Nat
  body : String
deriving Repr, DecidableEq

/-- Stored (non-id) columns of a `users` row. -/
structure UserFields where
  name : String
  email : String
deriving Repr, DecidableEq

/-- Stored (non-id) columns of a `posts` row. -/
structure PostFields where
  user_id : Nat
  title : String
  body : String
deriving Repr, DecidableEq

/-- Stored (non-id) columns of a `comments` row; `created_at` is the
database-assigned insert timestamp. -/
structure CommentFields where
  post_id : Nat
  body : String
  created_at : Nat
deriving Repr, DecidableEq

/-- One relational table: rows keyed by integer id, plus the auto-increment
counter used for the next `INSERT`. -/
structure Table (β : Type) where
  rows : List (Nat × β)
  nextId : Nat
deriving Repr, DecidableEq

/-- An empty table: MySQL auto-increment ids start at 1. -/
def Table.empty {β : Type} : Table β := ⟨[], 1⟩

/-- The `INSERT`: append a row under the auto-increment id and return the new
table together with `cursor.lastrowid`. -/
def Table.insertRow {β : Type} (t : Table β) (b : β) : Table β × Nat :=
  (⟨t.rows ++ [(t.nextId, b)], t.nextId + 1⟩, t.nextId)

/-- The `SELECT * FROM t WHERE id = %s` + `fetchone`. -/
def Table.selectById {β : Type} (t : Table β) (id : Nat) : Option (Nat × β) :=
  t.rows.find? (fun r => r.1 == id)

/-- The `UPDATE t SET ... WHERE id = %s`: rewrite every row matching the id and
report the matched row count (`cursor.rowcount`). -/
def Table.updateById {β : Type} (t : Table β) (id : Nat) (b : β) : Table β × Nat :=
  (⟨t.rows.map (fun r => if r.1 == id then (id, b) else r), t.nextId⟩,
   t.rows.countP (fun r => r.1 == id))

/-- The `DELETE FROM t WHERE id = %s`: drop every row matching the id and report
the matched row count (`cursor.rowcount`). -/
def Table.deleteById {β : Type} (t : Table β) (id : Nat) : Table β × Nat :=
  (⟨t.rows.filter (fun r => r.1 != id), t.nextId⟩,
   t.rows.countP (fun r => r.1 == id))

/-- Invariant the database engine guarantees for a table: ids are unique
(primary key) and every id is below the auto-increment counter. -/
def Table.WF {β : Type} (t : Table β) : Prop :=
  t.rows.Pairwise (fun a b => a.1 ≠ b.1) ∧ ∀ r ∈ t.rows, r.1 < t.nextId

/-- The whole database: the three tables created by `init.sql`. -/
structure DB where
  users : Table UserFields
  posts : Table PostFields
  comments : Table CommentFields
deriving Repr, DecidableEq

/-- The freshly initialized database. -/
def DB.empty : DB := ⟨Table.empty, Table.empty, Table.empty⟩

/-- All three tables well-formed. -/
def DB.WF (db : DB) : Prop := db.users.WF ∧ db.posts.WF ∧ db.comments.WF

/-- The `fastapi.HTTPException` as raised by the handlers. -/
structure HTTPException where
  status_code : Nat
  detail : String
deriving Repr, DecidableEq

/-- Response of user endpoints: `{id, name, email}`. -/
structure UserOut where
  id : Nat
  name : String
  email : String
deriving Repr, DecidableEq

/-- Response of post endpoints: `{id, user_id, title, body}`. -/
structure PostOut where
  id : Nat
  user_id : Nat
  title : String
  body : String
deriving Repr, DecidableEq

/-- Response of comment endpoints: `{id, post_id, body, created_at}`. -/
structure CommentOut where
  id : Nat
  post_id : Nat
  body : String
  created_at : Nat
deriving Repr, DecidableEq

/-- Response of `POST`/`PUT` `/comments`: the code echoes only
`{id, post_id, body}`, without the database-assigned `created_at`. -/
structure CommentEcho where
  id : Nat
  post_id : Nat
  body : String
deriving Repr, DecidableEq

/-- Confirmation response `{detail: ...}` of the delete endpoints. -/
structure DetailOut where
  detail : String
deriving Repr, DecidableEq

/-- The `POST /users`: insert and echo the submitted fields with the new id. -/
def create_user (db : DB) (u : UserCreate) : DB × UserOut :=
  let r := db.users.insertRow ⟨u.name, u.email⟩
  ({ db with users := r.1 }, ⟨r.2, u.name, u.email⟩)

/-- The `GET /users`: `SELECT * FROM users`, every row as a dict. -/
def list_users (db : DB) : List UserOut :=
  db.users.rows.map (fun r => ⟨r.1, r.2.name, r.2.email⟩)

/-- The `GET /users/{user_id}`: one row or 404. -/
def get_user (db : DB) (user_id : Nat) : Except HTTPException UserOut :=
  match db.users.selectById user_id with
  | none => .error ⟨404, "User not found"⟩
  | some r => .ok ⟨r.1, r.2.name, r.2.email⟩

/-- The `PUT /users/{user_id}`: update, commit, then 404 on zero rowcount, else
echo the path id with the submitted fields. -/
def update_user (db : DB) (user_id : Nat) (u : UserCreate) :
    DB × Except HTTPException UserOut :=
  let r := db.users.updateById user_id ⟨u.name, u.email⟩
  let db' := { db with users := r.1 }
  if r.2 == 0 then (db', .error ⟨404, "User not found"⟩)
  else (db', .ok ⟨user_id, u.name, u.email⟩)

/-- The `DELETE /users/{user_id}`: delete, commit, then 404 on zero rowcount. -/
def delete_user (db : DB) (user_id : Nat) :
    DB × Except HTTPException DetailOut :=
  let r := db.users.deleteById user_id
  let db' := { db with users := r.1 }
  if r.2 == 0 then (db', .error ⟨404, "User not found"⟩)
  else (db', .ok ⟨"User deleted"⟩)

/-- The `POST /posts`. -/
def create_post (db : DB) (p : PostCreate) : DB × PostOut :=
  let r := db.posts.insertRow ⟨p.user_id, p.title, p.body⟩
  ({ db with posts := r.1 }, ⟨r.2, p.user_id, p.title, p.body⟩)

/-- The `GET /posts`. -/
def list_posts (db : DB) : List PostOut :=
  db.posts.rows.map (fun r => ⟨r.1, r.2.user_id, r.2.title, r.2.body⟩)

/-- The `GET /posts/{post_id}`. -/
def get_post (db : DB) (post_id : Nat) : Except HTTPException PostOut :=
  match db.posts.selectById post_id with
  | none => .error ⟨404, "Post not found"⟩
  | some r => .ok ⟨r.1, r.2.user_id, r.2.title, r.2.body⟩

/-- The `PUT /posts/{post_id}`. -/
def update_post (db : DB) (post_id : Nat) (p : PostCreate) :
    DB × Except HTTPException PostOut :=
  let r := db.posts.updateById post_id ⟨p.user_id, p.title, p.body⟩
  let db' := { db with posts := r.1 }
  if r.2 == 0 then (db', .error ⟨404, "Post not found"⟩)
  else (db', .ok ⟨post_id, p.user_id, p.title, p.body⟩)

/-- The `DELETE /posts/{post_id}`. -/
def delete_post (db : DB) (post_id : Nat) :
    DB × Except HTTPException DetailOut :=
  let r := db.posts.deleteById post_id
  let db' := { db with posts := r.1 }
  if r.2 == 0 then (db', .error ⟨404, "Post not found"⟩)
  else (db', .ok ⟨"Post deleted"⟩)

/-- The `POST /comments`: `created_at` is assigned by the database clock `now`. -/
def create_comment (db : DB) (c : CommentCreate) (now : Nat) : DB × CommentEcho :=
  let r := db.comments.insertRow ⟨c.post_id, c.body, now⟩
  ({ db with comments := r.1 }, ⟨r.2, c.post_id, c.body⟩)

/-- The `GET /comments`. -/
def list_comments (db : DB) : List CommentOut :=
  db.comments.rows.map (fun r => ⟨r.1, r.2.post_id, r.2.body, r.2.created_at⟩)

/-- The `GET /comments/{comment_id}`. -/
def get_comment (db : DB) (comment_id : Nat) : Except HTTPException CommentOut :=
  match db.comments.selectById comment_id with
  | none => .error ⟨404, "Comment not found"⟩
  | some r => .ok ⟨r.1, r.2.post_id, r.2.body, r.2.created_at⟩

/-- The `PUT /comments/{comment_id}`: note the update does not touch
`created_at` (the SQL sets only `post_id` and `body`). -/
def update_comment (db : DB) (comment_id : Nat) (c : CommentCreate) :
    DB × Except HTTPException CommentEcho :=
  let r := db.comments.rows.countP (fun x => x.1 == comment_id)
  let rows' := db.comments.rows.map
    (fun x => if x.1 == comment_id then (comment_id, ⟨c.post_id, c.body, x.2.created_at⟩) else x)
  let db' := { db with comments := ⟨rows', db.comments.nextId⟩ }
  if r == 0 then (db', .error ⟨404, "Comment not found"⟩)
  else (db', .ok ⟨comment_id, c.post_id, c.body⟩)

/-- The `DELETE /comments/{comment_id}`. -/
def delete_comment (db : DB) (comment_id : Nat) :
    DB × Except HTTPException DetailOut :=
  let r := db.comments.deleteById comment_id
  let db' := { db with comments := r.1 }
  if r.2 == 0 then (db', .error ⟨404, "Comment not found"⟩)
  else (db', .ok ⟨"Comment deleted"⟩)

/-- One row of the `GET /users/{id}/posts` join
(`SELECT posts.id, posts.title, posts.body, users.name, users.email`). -/
structure UserPostsJoinRow where
  post_id : Nat
  title : String
  body : String
  name : String
  email : String
deriving Repr, DecidableEq

/-- The join `FROM posts JOIN users ON posts.user_id = users.id WHERE
users.id = %s`. -/
def userPostsJoin (db : DB) (user_id : Nat) : List UserPostsJoinRow :=
  db.posts.rows.flatMap (fun p =>
    (db.users.rows.filter (fun u => p.2.user_id == u.1 && u.1 == user_id)).map
      (fun u => ⟨p.1, p.2.title, p.2.body, u.2.name, u.2.email⟩))

/-- Child entry `{id, title, body}` of the posts-by-user response. -/
structure PostChild where
  id : Nat
  title : String
  body : String
deriving Repr, DecidableEq

/-- Response shape of `GET /users/{id}/posts`. -/
structure UserPostsOut where
  user : UserOut
  posts : List PostChild
deriving Repr, DecidableEq

/-- The `GET /users/{user_id}/posts`: join, then on an empty join fall back to a
parent-existence query; 404 only when the user row is absent. -/
def get_user_posts (db : DB) (user_id : Nat) : Except HTTPException UserPostsOut :=
  match userPostsJoin db user_id with
  | [] =>
    match db.users.selectById user_id with
    | none => .error ⟨404, "User not found"⟩
    | some u => .ok ⟨⟨u.1, u.2.name, u.2.email⟩, []⟩
  | r :: rs =>
    .ok ⟨⟨user_id, r.name, r.email⟩,
         (r :: rs).map (fun p => ⟨p.post_id, p.title, p.body⟩)⟩

/-- One row of the `GET /posts/{id}/comments` join (aliased columns). -/
structure PostCommentsJoinRow where
  post_id : Nat
  user_id : Nat
  title : String
  post_body : String
  comment_id : Nat
  comment_body : String
  created_at : Nat
deriving Repr, DecidableEq

/-- The join `FROM comments JOIN posts ON comments.post_id = posts.id WHERE
posts.id = %s`. -/
def postCommentsJoin (db : DB) (post_id : Nat) : List PostCommentsJoinRow :=
  db.comments.rows.flatMap (fun c =>
    (db.posts.rows.filter (fun p => c.2.post_id == p.1 && p.1 == post_id)).map
      (fun p => ⟨p.1, p.2.user_id, p.2.title, p.2.body, c.1, c.2.body, c.2.created_at⟩))

/-- Child entry `{id, body, created_at}` of the comments-by-post response. -/
structure CommentChild where
  id : Nat
  body : String
  created_at : Nat
deriving Repr, DecidableEq

/-- Response shape of `GET /posts/{id}/comments`. -/
structure PostCommentsOut where
  post : PostOut
  comments : List CommentChild
deriving Repr, DecidableEq

/-- The `GET /posts/{post_id}/comments`: join plus fallback, as for posts-by-user. -/
def get_post_comments (db : DB) (post_id : Nat) : Except HTTPException PostCommentsOut :=
  match postCommentsJoin db post_id with
  | [] =>
    match db.posts.selectById post_id with
    | none => .error ⟨404, "Post not found"⟩
    | some p => .ok ⟨⟨p.1, p.2.user_id, p.2.title, p.2.body⟩, []⟩
  | r :: rs =>
    .ok ⟨⟨r.post_id, r.user_id, r.title, r.post_body⟩,
         (r :: rs).map (fun c => ⟨c.comment_id, c.comment_body, c.created_at⟩)⟩

/-- The posts owned by a user, shaped as the children of the
posts-by-user response: all posts whose `user_id` matches. -/
def postsOfUser (db : DB) (user_id : Nat) : List PostChild :=
  (db.posts.rows.filter (fun p => p.2.user_id == user_id)).map
    (fun p => ⟨p.1, p.2.title, p.2.body⟩)

/-- The comments owned by a post, shaped as the children of the
comments-by-post response: all comments whose `post_id` matches. -/
def commentsOfPost (db : DB) (post_id : Nat) : List CommentChild :=
  (db.comments.rows.filter (fun c => c.2.post_id == post_id)).map
    (fun c => ⟨c.1, c.2.body, c.2.created_at⟩)

/-! ### Startup initializer (`lifespan`)

The `lifespan` context manager loops up to 30 times: it tries to open a
connection; on success it reads `init.sql`, splits it on `";"`, strips each
piece, executes the non-empty ones in order, commits and breaks out of the
loop; on a connector error it sleeps one second and tries again.  After the
loop — whether or not any attempt succeeded — it yields, so the process
starts serving requests regardless.  We model connection attempts by an
oracle `connectOk : Nat → Bool` giving the outcome of the k-th attempt. -/

/-- The schema statements actually executed: split the script on the
statement terminator, trim each piece, drop the empty ones. -/
def splitStatements (script : String) : List String :=
  ((script.splitOn ";").map (fun s => s.trim)).filter (fun s => s != "")

/-- Outcome of the startup loop: the statements executed on the first
successful connection (`none` if every attempt failed), how many connection
attempts were made, how many fixed one-second waits happened, and whether
the process went on to serve requests (reached `yield`). -/
structure InitResult where
  executed : Option (List String)
  attempts : Nat
  sleeps : Nat
  serving : Bool
deriving Repr, DecidableEq

/-- The retry loop with `fuel` iterations remaining and `a` attempts already
made (and `a` waits already performed, one per failed attempt). -/
def lifespanLoop (connectOk : Nat → Bool) (script : String) :
    Nat → Nat → InitResult
  | 0, a => ⟨none, a, a, true⟩
  | fuel + 1, a =>
    if connectOk a then ⟨some (splitStatements script), a + 1, a, true⟩
    else lifespanLoop connectOk script fuel (a + 1)

/-- The `lifespan` startup initializer: at most 30 connection attempts. -/
def lifespan (connectOk : Nat → Bool) (script : String) : InitResult :=
  lifespanLoop connectOk script 30 0

/-! ### Scoped request connection (`get_db`)

Every handler takes its connection from the `get_db` dependency, which
opens a connection and does `try: yield conn finally: conn.close()`.  The
`finally` clause runs when the request ends, whether the handler returned
normally or raised.  We model one request execution: run the handler and
record, per branch, that the connection was closed. -/

/-- A finished request: the handler's outcome and whether the scoped
connection was released. -/
structure RequestOutcome (ρ : Type) where
  response : Except HTTPException ρ
  connClosed : Bool

/-- Run one request through the `get_db` dependency: the handler body
executes between `yield` and the `finally`, and `conn.close()` runs on the
normal-return branch and on the raising branch alike. -/
def get_db {ρ : Type} (handler : DB → Except HTTPException ρ) (db : DB) :
    RequestOutcome ρ :=
  match handler db with
  | .ok r => ⟨.ok r, true⟩
  | .error e => ⟨.error e, true⟩

/-! ### Request traces

For the List-endpoint claim we run an arbitrary sequence of mutating
requests from the freshly initialized database and compare the tables with
a reference model that maps each id to its current fields. -/

/-- One mutating request (the read-only endpoints do not change state). -/
inductive Event where
  | createUser (u : UserCreate)
  | updateUser (id : Nat) (u : UserCreate)
  | deleteUser (id : Nat)
  | createPost (p : PostCreate)
  | updatePost (id : Nat) (p : PostCreate)
  | deletePost (id : Nat)
  | createComment (c : CommentCreate) (now : Nat)
  | updateComment (id : Nat) (c : CommentCreate)
  | deleteComment (id : Nat)
deriving Repr, DecidableEq

/-- The database state after one request (mutations are committed even on
the 404 paths, which commit before the row-count check). -/
def applyEvent (db : DB) : Event → DB
  | .createUser u => (create_user db u).1
  | .updateUser id u => (update_user db id u).1
  | .deleteUser id => (delete_user db id).1
  | .createPost p => (create_post db p).1
  | .updatePost id p => (update_post db id p).1
  | .deletePost id => (delete_post db id).1
  | .createComment c now => (create_comment db c now).1
  | .updateComment id c => (update_comment db id c).1
  | .deleteComment id => (delete_comment db id).1

/-- The database state after a whole trace, starting from the freshly
initialized database. -/
def applyEvents (es : List Event) : DB := es.foldl applyEvent DB.empty

/-- Reference model: each table as a map from id to current fields, plus
the next auto-increment id per table. -/
structure SpecDB where
  users : Nat → Option UserFields
  posts : Nat → Option PostFields
  comments : Nat → Option CommentFields
  nextUser : Nat
  nextPost : Nat
  nextComment : Nat

/-- The reference model of the freshly initialized database. -/
def SpecDB.empty : SpecDB := ⟨fun _ => none, fun _ => none, fun _ => none, 1, 1, 1⟩

/-- Reference semantics of one request: create binds the next id, update
overwrites the fields of an existing id (keeping `created_at` for
comments), delete unbinds the id; updates and deletes of absent ids change
nothing. -/
def specStep (s : SpecDB) : Event → SpecDB
  | .createUser u =>
    { s with
      users := fun i => if i = s.nextUser then some ⟨u.name, u.email⟩ else s.users i
      nextUser := s.nextUser + 1 }
  | .updateUser id u =>
    { s with
      users := fun i =>
        if i = id then (s.users id).map (fun _ => ⟨u.name, u.email⟩) else s.users i }
  | .deleteUser id =>
    { s with users := fun i => if i = id then none else s.users i }
  | .createPost p =>
    { s with
      posts := fun i =>
        if i = s.nextPost then some ⟨p.user_id, p.title, p.body⟩ else s.posts i
      nextPost := s.nextPost + 1 }
  | .updatePost id p =>
    { s with
      posts := fun i =>
        if i = id then (s.posts id).map (fun _ => ⟨p.user_id, p.title, p.body⟩)
        else s.posts i }
  | .deletePost id =>
    { s with posts := fun i => if i = id then none else s.posts i }
  | .createComment c now =>
    { s with
      comments := fun i =>
        if i = s.nextComment then some ⟨c.post_id, c.body, now⟩ else s.comments i
      nextComment := s.nextComment + 1 }
  | .updateComment id c =>
    { s with
      comments := fun i =>
        if i = id then
          (s.comments id).map (fun old => ⟨c.post_id, c.body, old.created_at⟩)
        else s.comments i }
  | .deleteComment id =>
    { s with comments := fun i => if i = id then none else s.comments i }

/-- Reference state after a whole trace. -/
def specOf (es : List Event) : SpecDB := es.foldl specStep SpecDB.empty

/-- A table realizes a reference map: membership of a row is exactly the
map binding its id to its fields. -/
def Table.abs {β : Type} (t : Table β) (f : Nat → Option β) : Prop :=
  ∀ id b, (id, b) ∈ t.rows ↔ f id = some b

/-- The whole database realizes the reference model, counters included. -/
def DBAbs (db : DB) (s : SpecDB) : Prop :=
  db.users.abs s.users ∧ db.posts.abs s.posts ∧ db.comments.abs s.comments ∧
  db.users.nextId = s.nextUser ∧ db.posts.nextId = s.nextPost ∧
  db.comments.nextId = s.nextComment

/-! ### Concrete states used to instantiate the theorems -/

/-- A sample database: user 1 "Ann" owning post 1 "Hi", no comments. -/
def dbSample : DB :=
  ⟨⟨[(1, ⟨"Ann", "a@x.com"⟩)], 2⟩, ⟨[(1, ⟨1, "Hi", "B"⟩)], 2⟩, ⟨[], 1⟩⟩

/-- A sample database with a comment: user 1, post 1, comment 1 on post 1. -/
def dbSample2 : DB :=
  ⟨⟨[(1, ⟨"Ann", "a@x.com"⟩)], 2⟩, ⟨[(1, ⟨1, "Hi", "B"⟩)], 2⟩,
   ⟨[(1, ⟨1, "Nice", 5⟩)], 2⟩⟩

/-! ## Generic facts about id-keyed tables -/

theorem find?_key_eq_none_of_not_mem {β : Type} (rows : List (Nat × β)) (id : Nat)
    (h : ∀ b, (id, b) ∉ rows) : rows.find? (fun r => r.1 == id) = none := by
  refine List.find?_eq_none.mpr (fun r hr => ?_)
  simp only [beq_iff_eq]
  intro heq
  exact h r.2 (by simpa [← heq] using hr)

theorem countP_key_eq_zero_of_not_mem {β : Type} (rows : List (Nat × β)) (id : Nat)
    (h : ∀ b, (id, b) ∉ rows) : rows.countP (fun r => r.1 == id) = 0 := by
  refine List.countP_eq_zero.mpr (fun r hr => ?_)
  simp only [beq_iff_eq]
  intro heq
  exact h r.2 (by simpa [← heq] using hr)

theorem not_mem_of_countP_key_eq_zero {β : Type} (rows : List (Nat × β)) (id : Nat)
    (h : rows.countP (fun r => r.1 == id) = 0) : ∀ b, (id, b) ∉ rows := by
  intro b hb
  have := List.countP_eq_zero.mp h (id, b) hb
  simp at this

/-- Appending a fresh row and searching for its id finds exactly it. -/
theorem find?_key_append_fresh {β : Type} (rows : List (Nat × β)) (n : Nat) (b : β)
    (hfresh : ∀ r ∈ rows, r.1 ≠ n) :
    (rows ++ [(n, b)]).find? (fun r => r.1 == n) = some (n, b) := by
  induction rows with
  | nil => simp
  | cons r rs ih =>
    have hr : (r.1 == n) = false := by
      simpa using hfresh r (List.mem_cons_self r rs)
    rw [List.cons_append, List.find?_cons, hr]
    exact ih (fun x hx => hfresh x (List.mem_cons_of_mem r hx))

/-- With distinct keys, filtering on the key found by `find?` keeps exactly
that row. -/
theorem filter_key_of_find?_eq_some {β : Type} {rows : List (Nat × β)}
    (hnd : rows.Pairwise (fun a b => a.1 ≠ b.1)) {id : Nat} {u : Nat × β}
    (hfind : rows.find? (fun r => r.1 == id) = some u) :
    rows.filter (fun r => r.1 == id) = [u] := by
  induction rows with
  | nil => simp at hfind
  | cons r rs ih =>
    rw [List.pairwise_cons] at hnd
    by_cases h : r.1 = id
    · have hpos : (r.1 == id) = true := by simpa using h
      rw [List.find?_cons, hpos] at hfind
      rw [List.filter_cons, hpos, if_pos rfl]
      have hnil : rs.filter (fun x : Nat × β => x.1 == id) = [] := by
        refine List.filter_eq_nil_iff.mpr (fun x hx => ?_)
        have := hnd.1 x hx
        simp only [beq_iff_eq]
        omega
      rw [hnil]
      exact congrArg (fun o => [o]) (Option.some.inj hfind)
    · have hneg : (r.1 == id) = false := by simpa using h
      rw [List.find?_cons, hneg] at hfind
      rw [List.filter_cons, hneg, if_neg (by simp)]
      exact ih hnd.2 hfind

theorem filter_key_of_find?_eq_none {β : Type} {rows : List (Nat × β)} {id : Nat}
    (hfind : rows.find? (fun r => r.1 == id) = none) :
    rows.filter (fun r => r.1 == id) = [] := by
  refine List.filter_eq_nil_iff.mpr (fun r hr => ?_)
  simpa using List.find?_eq_none.mp hfind r hr

/-- Rewriting rows at one key does not change which keys match it. -/
theorem countP_key_map_rewrite {β : Type} (rows : List (Nat × β)) (id : Nat)
    (g : β → β) :
    (rows.map (fun r => if r.1 == id then (id, g r.2) else r)).countP
        (fun r => r.1 == id) =
      rows.countP (fun r => r.1 == id) := by
  rw [List.countP_map]
  refine List.countP_congr (fun r _ => ?_)
  by_cases h : r.1 = id <;> simp [h]

/-- Rewriting rows at one key twice is the same as doing it once, provided
the per-row rewrite is idempotent. -/
theorem map_rewrite_idem {β : Type} (rows : List (Nat × β)) (id : Nat)
    (g : β → β) (hg : ∀ b, g (g b) = g b) :
    ((rows.map (fun r => if r.1 == id then (id, g r.2) else r)).map
        (fun r => if r.1 == id then (id, g r.2) else r)) =
      rows.map (fun r => if r.1 == id then (id, g r.2) else r) := by
  rw [List.map_map]
  refine List.map_congr_left (fun r _ => ?_)
  by_cases h : r.1 = id <;> simp [h, hg]

/-- A zero matched-row count means the rewrite touches nothing. -/
theorem map_rewrite_eq_self {β : Type} (rows : List (Nat × β)) (id : Nat)
    (g : β → β) (h : rows.countP (fun r => r.1 == id) = 0) :
    rows.map (fun r => if r.1 == id then (id, g r.2) else r) = rows := by
  have hall := List.countP_eq_zero.mp h
  have hmap : rows.map (fun r => if r.1 == id then (id, g r.2) else r) =
      rows.map (fun r => r) := by
    refine List.map_congr_left (fun r hr => ?_)
    have := hall r hr
    simp only [beq_iff_eq] at this
    simp [this]
  simpa using hmap

/-- A zero matched-row count means the delete removes nothing. -/
theorem filter_ne_eq_self {β : Type} (rows : List (Nat × β)) (id : Nat)
    (h : rows.countP (fun r => r.1 == id) = 0) :
    rows.filter (fun r => r.1 != id) = rows := by
  have hall := List.countP_eq_zero.mp h
  refine List.filter_eq_self.mpr (fun r hr => ?_)
  have := hall r hr
  simp only [beq_iff_eq] at this
  simpa using this

/-- After a delete, no row with the deleted key remains. -/
theorem countP_key_filter_ne {β : Type} (rows : List (Nat × β)) (id : Nat) :
    (rows.filter (fun r => r.1 != id)).countP (fun r => r.1 == id) = 0 := by
  refine List.countP_eq_zero.mpr (fun r hr => ?_)
  have := (List.mem_filter.mp hr).2
  simp only [bne_iff_ne] at this
  simpa using this

/-! ### Refinement of the tables by the reference maps -/

theorem Table.WF_insertRow {β : Type} (t : Table β) (hwf : t.WF) (b : β) :
    (t.insertRow b).1.WF := by
  obtain ⟨hnd, hlt⟩ := hwf
  dsimp only [Table.insertRow, Table.WF]
  refine ⟨?_, ?_⟩
  · rw [List.pairwise_append]
    refine ⟨hnd, by simp, ?_⟩
    intro a ha x hx
    simp only [List.mem_singleton] at hx
    have := hlt a ha
    rw [hx]
    exact Nat.ne_of_lt this
  · intro r hr
    rcases List.mem_append.mp hr with h | h
    · exact Nat.lt_succ_of_lt (hlt r h)
    · simp only [List.mem_singleton] at h
      rw [h]
      exact Nat.lt_succ_self _

theorem Table.abs_insertRow {β : Type} (t : Table β) (f : Nat → Option β)
    (hwf : t.WF) (habs : t.abs f) (b : β) :
    (t.insertRow b).1.abs (fun i => if i = t.nextId then some b else f i) := by
  dsimp only [Table.insertRow, Table.abs]
  intro i x
  constructor
  · intro hmem
    rcases List.mem_append.mp hmem with h | h
    · have hlt : i < t.nextId := hwf.2 (i, x) h
      rw [if_neg (Nat.ne_of_lt hlt)]
      exact (habs i x).mp h
    · simp only [List.mem_singleton, Prod.mk.injEq] at h
      rw [if_pos h.1, h.2]
  · intro hif
    by_cases hi : i = t.nextId
    · rw [if_pos hi] at hif
      have hx := Option.some.inj hif
      refine List.mem_append.mpr (Or.inr ?_)
      simp [hi, ← hx]
    · rw [if_neg hi] at hif
      exact List.mem_append.mpr (Or.inl ((habs i x).mpr hif))

theorem WF_map_rewrite {β : Type} (t : Table β) (hwf : t.WF) (k : Nat)
    (g : β → β) :
    Table.WF ⟨t.rows.map (fun r => if r.1 == k then (k, g r.2) else r),
      t.nextId⟩ := by
  obtain ⟨hnd, hlt⟩ := hwf
  have hkey : ∀ r : Nat × β, ((if r.1 == k then (k, g r.2) else r)).1 = r.1 := by
    intro r
    by_cases h : r.1 = k <;> simp [h]
  refine ⟨?_, ?_⟩
  · rw [List.pairwise_map]
    refine hnd.imp ?_
    intro a b hab
    rw [hkey, hkey]
    exact hab
  · intro r hr
    obtain ⟨a, ha, hfa⟩ := List.mem_map.mp hr
    rw [← hfa, hkey]
    exact hlt a ha

theorem abs_map_rewrite {β : Type} (rows : List (Nat × β)) (f : Nat → Option β)
    (habs : ∀ i b, (i, b) ∈ rows ↔ f i = some b) (k : Nat) (g : β → β) :
    ∀ i x, (i, x) ∈ rows.map (fun r => if r.1 == k then (k, g r.2) else r) ↔
      (if i = k then (f k).map g else f i) = some x := by
  intro i x
  constructor
  · intro hmem
    obtain ⟨r, hr, hfr⟩ := List.mem_map.mp hmem
    by_cases hrk : r.1 = k
    · rw [if_pos (by simpa using hrk)] at hfr
      have hik : k = i := congrArg Prod.fst hfr
      have hx : g r.2 = x := congrArg Prod.snd hfr
      have hfk : f k = some r.2 := by
        refine (habs k r.2).mp ?_
        rw [← hrk]
        simpa using hr
      rw [if_pos hik.symm, hfk]
      simpa using hx
    · rw [if_neg (by simpa using hrk)] at hfr
      have hik : i ≠ k := by
        rw [hfr] at hrk
        simpa using hrk
      rw [if_neg hik]
      refine (habs i x).mp ?_
      rw [hfr] at hr
      exact hr
  · intro hif
    by_cases hik : i = k
    · rw [if_pos hik] at hif
      obtain ⟨y, hy, hgy⟩ := Option.map_eq_some'.mp hif
      refine List.mem_map.mpr ⟨(k, y), (habs k y).mpr hy, ?_⟩
      rw [if_pos (by simp)]
      rw [← hik, hgy]
    · rw [if_neg hik] at hif
      refine List.mem_map.mpr ⟨(i, x), (habs i x).mpr hif, ?_⟩
      rw [if_neg (by simpa using hik)]

theorem WF_filter_ne {β : Type} (t : Table β) (hwf : t.WF) (k : Nat) :
    Table.WF ⟨t.rows.filter (fun r => r.1 != k), t.nextId⟩ := by
  obtain ⟨hnd, hlt⟩ := hwf
  exact ⟨hnd.sublist (List.filter_sublist _),
    fun r hr => hlt r (List.mem_of_mem_filter hr)⟩

theorem abs_filter_ne {β : Type} (rows : List (Nat × β)) (f : Nat → Option β)
    (habs : ∀ i b, (i, b) ∈ rows ↔ f i = some b) (k : Nat) :
    ∀ i x, (i, x) ∈ rows.filter (fun r => r.1 != k) ↔
      (if i = k then none else f i) = some x := by
  intro i x
  rw [List.mem_filter]
  by_cases hik : i = k
  · rw [if_pos hik]
    simp [hik]
  · rw [if_neg hik]
    rw [habs i x]
    simp [hik]

theorem flatMap_congr_mem {α γ : Type} (l : List α) (f g : α → List γ)
    (h : ∀ a ∈ l, f a = g a) : l.flatMap f = l.flatMap g := by
  induction l with
  | nil => rfl
  | cons a as ih =>
    rw [List.flatMap_cons, List.flatMap_cons, h a (List.mem_cons_self a as),
      ih (fun x hx => h x (List.mem_cons_of_mem a hx))]

theorem flatMap_ite_singleton {α γ : Type} (l : List α) (q : α → Bool) (g : α → γ) :
    l.flatMap (fun a => if q a then [g a] else []) = (l.filter q).map g := by
  induction l with
  | nil => rfl
  | cons a as ih =>
    by_cases h : q a = true <;>
      simp [List.flatMap_cons, List.filter_cons, h, ih]

/-- If the parent user is absent, the posts-by-user join is empty. -/
theorem userPostsJoin_eq_nil (db : DB) (uid : Nat)
    (h : db.users.selectById uid = none) : userPostsJoin db uid = [] := by
  have hall := List.find?_eq_none.mp h
  refine List.flatMap_eq_nil_iff.mpr (fun p hp => ?_)
  have hfil : db.users.rows.filter
      (fun x => p.2.user_id == x.1 && x.1 == uid) = [] := by
    refine List.filter_eq_nil_iff.mpr (fun x hx => ?_)
    have hx1 := hall x hx
    simp only [beq_iff_eq] at hx1
    simp only [Bool.and_eq_true, beq_iff_eq, not_and]
    exact fun _ h2 => hx1 (by simpa using h2)
  rw [hfil]
  rfl

/-- If the parent user exists (unique primary key), the posts-by-user join
is exactly the user's posts decorated with the user's fields. -/
theorem userPostsJoin_eq_map (db : DB) (uid : Nat) (u : Nat × UserFields)
    (hnd : db.users.rows.Pairwise (fun a b => a.1 ≠ b.1))
    (h : db.users.selectById uid = some u) :
    userPostsJoin db uid =
      (db.posts.rows.filter (fun p => p.2.user_id == uid)).map
        (fun p => ⟨p.1, p.2.title, p.2.body, u.2.name, u.2.email⟩) := by
  have hufil : db.users.rows.filter (fun r => r.1 == uid) = [u] :=
    filter_key_of_find?_eq_some hnd h
  unfold userPostsJoin
  rw [flatMap_congr_mem _ _
    (fun p => if p.2.user_id == uid
      then [(⟨p.1, p.2.title, p.2.body, u.2.name, u.2.email⟩ : UserPostsJoinRow)]
      else [])
    ?_]
  · exact flatMap_ite_singleton _ _ _
  · intro p hp
    by_cases hq : p.2.user_id = uid
    · have hsame : db.users.rows.filter
          (fun x => p.2.user_id == x.1 && x.1 == uid) =
          db.users.rows.filter (fun r => r.1 == uid) := by
        refine List.filter_congr (fun x hx => ?_)
        subst hq
        by_cases hx1 : x.1 = p.2.user_id
        · rw [hx1]
          simp
        · have hb : (x.1 == p.2.user_id) = false := by simpa using hx1
          have hb2 : (p.2.user_id == x.1) = false := by
            simpa using (Ne.symm hx1)
          rw [hb, hb2]
          rfl
      rw [hsame, hufil]
      simp [hq]
    · have hnil : db.users.rows.filter
          (fun x => p.2.user_id == x.1 && x.1 == uid) = [] := by
        refine List.filter_eq_nil_iff.mpr (fun x hx => ?_)
        simp only [Bool.and_eq_true, beq_iff_eq, not_and]
        exact fun h1 h2 => hq (h1.trans h2)
      rw [hnil]
      simp [hq]

/-- If the parent post is absent, the comments-by-post join is empty. -/
theorem postCommentsJoin_eq_nil (db : DB) (pid : Nat)
    (h : db.posts.selectById pid = none) : postCommentsJoin db pid = [] := by
  have hall := List.find?_eq_none.mp h
  refine List.flatMap_eq_nil_iff.mpr (fun x hx => ?_)
  have hfil : db.posts.rows.filter
      (fun p => x.2.post_id == p.1 && p.1 == pid) = [] := by
    refine List.filter_eq_nil_iff.mpr (fun p hp => ?_)
    have hp1 := hall p hp
    simp only [beq_iff_eq] at hp1
    simp only [Bool.and_eq_true, beq_iff_eq, not_and]
    exact fun _ h2 => hp1 (by simpa using h2)
  rw [hfil]
  rfl

/-- If the parent post exists (unique primary key), the comments-by-post
join is exactly the post's comments decorated with the post's fields. -/
theorem postCommentsJoin_eq_map (db : DB) (pid : Nat) (p : Nat × PostFields)
    (hnd : db.posts.rows.Pairwise (fun a b => a.1 ≠ b.1))
    (h : db.posts.selectById pid = some p) :
    postCommentsJoin db pid =
      (db.comments.rows.filter (fun x => x.2.post_id == pid)).map
        (fun x => ⟨p.1, p.2.user_id, p.2.title, p.2.body, x.1, x.2.body,
          x.2.created_at⟩) := by
  have hpfil : db.posts.rows.filter (fun r => r.1 == pid) = [p] :=
    filter_key_of_find?_eq_some hnd h
  unfold postCommentsJoin
  rw [flatMap_congr_mem _ _
    (fun x => if x.2.post_id == pid
      then [(⟨p.1, p.2.user_id, p.2.title, p.2.body, x.1, x.2.body,
        x.2.created_at⟩ : PostCommentsJoinRow)]
      else [])
    ?_]
  · exact flatMap_ite_singleton _ _ _
  · intro x hx
    by_cases hq : x.2.post_id = pid
    · have hsame : db.posts.rows.filter
          (fun y => x.2.post_id == y.1 && y.1 == pid) =
          db.posts.rows.filter (fun r => r.1 == pid) := by
        refine List.filter_congr (fun y hy => ?_)
        subst hq
        by_cases hy1 : y.1 = x.2.post_id
        · rw [hy1]
          simp
        · have hb : (y.1 == x.2.post_id) = false := by simpa using hy1
          have hb2 : (x.2.post_id == y.1) = false := by
            simpa using (Ne.symm hy1)
          rw [hb, hb2]
          rfl
      rw [hsame, hpfil]
      simp [hq]
    · have hnil : db.posts.rows.filter
          (fun y => x.2.post_id == y.1 && y.1 == pid) = [] := by
        refine List.filter_eq_nil_iff.mpr (fun y hy => ?_)
        simp only [Bool.and_eq_true, beq_iff_eq, not_and]
        exact fun h1 h2 => hq (h1.trans h2)
      rw [hnil]
      simp [hq]

theorem dbSample_WF : dbSample.WF := by
  refine ⟨⟨?_, ?_⟩, ⟨?_, ?_⟩, ⟨?_, ?_⟩⟩ <;> simp [dbSample]

theorem dbSample2_WF : dbSample2.WF := by
  refine ⟨⟨?_, ?_⟩, ⟨?_, ?_⟩, ⟨?_, ?_⟩⟩ <;> simp [dbSample2]

/-! ## The claims -/

/-! Closed-form equations for the mutating handlers, used to reason about
repeated application. -/

theorem update_user_def (db : DB) (i : Nat) (u : UserCreate) :
    update_user db i u =
      ({ db with users :=
          ⟨db.users.rows.map (fun r => if r.1 == i then (i, ⟨u.name, u.email⟩) else r),
           db.users.nextId⟩ },
       if db.users.rows.countP (fun r => r.1 == i) = 0
       then .error ⟨404, "User not found"⟩ else .ok ⟨i, u.name, u.email⟩) := by
  by_cases hc : db.users.rows.countP (fun r => r.1 == i) = 0 <;>
    simp [update_user, Table.updateById, hc]

theorem update_post_def (db : DB) (i : Nat) (p : PostCreate) :
    update_post db i p =
      ({ db with posts :=
          ⟨db.posts.rows.map
            (fun r => if r.1 == i then (i, ⟨p.user_id, p.title, p.body⟩) else r),
           db.posts.nextId⟩ },
       if db.posts.rows.countP (fun r => r.1 == i) = 0
       then .error ⟨404, "Post not found"⟩
       else .ok ⟨i, p.user_id, p.title, p.body⟩) := by
  by_cases hc : db.posts.rows.countP (fun r => r.1 == i) = 0 <;>
    simp [update_post, Table.updateById, hc]

theorem update_comment_def (db : DB) (i : Nat) (c : CommentCreate) :
    update_comment db i c =
      ({ db with comments :=
          ⟨db.comments.rows.map
            (fun r => if r.1 == i then (i, ⟨c.post_id, c.body, r.2.created_at⟩) else r),
           db.comments.nextId⟩ },
       if db.comments.rows.countP (fun r => r.1 == i) = 0
       then .error ⟨404, "Comment not found"⟩ else .ok ⟨i, c.post_id, c.body⟩) := by
  by_cases hc : db.comments.rows.countP (fun r => r.1 == i) = 0 <;>
    simp [update_comment, hc]

theorem delete_user_def (db : DB) (i : Nat) :
    delete_user db i =
      ({ db with users :=
          ⟨db.users.rows.filter (fun r => r.1 != i), db.users.nextId⟩ },
       if db.users.rows.countP (fun r => r.1 == i) = 0
       then .error ⟨404, "User not found"⟩ else .ok ⟨"User deleted"⟩) := by
  by_cases hc : db.users.rows.countP (fun r => r.1 == i) = 0 <;>
    simp [delete_user, Table.deleteById, hc]

theorem delete_post_def (db : DB) (i : Nat) :
    delete_post db i =
      ({ db with posts :=
          ⟨db.posts.rows.filter (fun r => r.1 != i), db.posts.nextId⟩ },
       if db.posts.rows.countP (fun r => r.1 == i) = 0
       then .error ⟨404, "Post not found"⟩ else .ok ⟨"Post deleted"⟩) := by
  by_cases hc : db.posts.rows.countP (fun r => r.1 == i) = 0 <;>
    simp [delete_post, Table.deleteById, hc]

theorem delete_comment_def (db : DB) (i : Nat) :
    delete_comment db i =
      ({ db with comments :=
          ⟨db.comments.rows.filter (fun r => r.1 != i), db.comments.nextId⟩ },
       if db.comments.rows.countP (fun r => r.1 == i) = 0
       then .error ⟨404, "Comment not found"⟩ else .ok ⟨"Comment deleted"⟩) := by
  by_cases hc : db.comments.rows.countP (fun r => r.1 == i) = 0 <;>
    simp [delete_comment, Table.deleteById, hc]

/-! Specializations of the rewrite lemmas to the handlers' row functions. -/

theorem countP_key_map_constU (rows : List (Nat × UserFields)) (i : Nat)
    (b : UserFields) :
    (rows.map (fun r => if r.1 == i then (i, b) else r)).countP
        (fun r => r.1 == i) = rows.countP (fun r => r.1 == i) :=
  countP_key_map_rewrite rows i (fun _ => b)

theorem countP_key_map_constP (rows : List (Nat × PostFields)) (i : Nat)
    (b : PostFields) :
    (rows.map (fun r => if r.1 == i then (i, b) else r)).countP
        (fun r => r.1 == i) = rows.countP (fun r => r.1 == i) :=
  countP_key_map_rewrite rows i (fun _ => b)

theorem countP_key_map_comment (rows : List (Nat × CommentFields)) (i : Nat)
    (c : CommentCreate) :
    (rows.map (fun r =>
        if r.1 == i then (i, ⟨c.post_id, c.body, r.2.created_at⟩) else r)).countP
        (fun r => r.1 == i) = rows.countP (fun r => r.1 == i) :=
  countP_key_map_rewrite rows i
    (fun old => (⟨c.post_id, c.body, old.created_at⟩ : CommentFields))

theorem map_key_const_idemU (rows : List (Nat × UserFields)) (i : Nat)
    (b : UserFields) :
    ((rows.map (fun r => if r.1 == i then (i, b) else r)).map
        (fun r => if r.1 == i then (i, b) else r)) =
      rows.map (fun r => if r.1 == i then (i, b) else r) :=
  map_rewrite_idem rows i (fun _ => b) (fun _ => rfl)

theorem map_key_const_idemP (rows : List (Nat × PostFields)) (i : Nat)
    (b : PostFields) :
    ((rows.map (fun r => if r.1 == i then (i, b) else r)).map
        (fun r => if r.1 == i then (i, b) else r)) =
      rows.map (fun r => if r.1 == i then (i, b) else r) :=
  map_rewrite_idem rows i (fun _ => b) (fun _ => rfl)

theorem map_key_comment_idem (rows : List (Nat × CommentFields)) (i : Nat)
    (c : CommentCreate) :
    ((rows.map (fun r =>
        if r.1 == i then (i, ⟨c.post_id, c.body, r.2.created_at⟩) else r)).map
        (fun r => if r.1 == i then (i, ⟨c.post_id, c.body, r.2.created_at⟩) else r)) =
      rows.map (fun r =>
        if r.1 == i then (i, ⟨c.post_id, c.body, r.2.created_at⟩) else r) :=
  map_rewrite_idem rows i
    (fun old => (⟨c.post_id, c.body, old.created_at⟩ : CommentFields)) (fun _ => rfl)

theorem map_key_const_eq_selfU (rows : List (Nat × UserFields)) (i : Nat)
    (b : UserFields) (h : rows.countP (fun r => r.1 == i) = 0) :
    rows.map (fun r => if r.1 == i then (i, b) else r) = rows :=
  map_rewrite_eq_self rows i (fun _ => b) h

theorem map_key_const_eq_selfP (rows : List (Nat × PostFields)) (i : Nat)
    (b : PostFields) (h : rows.countP (fun r => r.1 == i) = 0) :
    rows.map (fun r => if r.1 == i then (i, b) else r) = rows :=
  map_rewrite_eq_self rows i (fun _ => b) h

theorem map_key_comment_eq_self (rows : List (Nat × CommentFields)) (i : Nat)
    (c : CommentCreate) (h : rows.countP (fun r => r.1 == i) = 0) :
    rows.map (fun r =>
      if r.1 == i then (i, ⟨c.post_id, c.body, r.2.created_at⟩) else r) = rows :=
  map_rewrite_eq_self rows i
    (fun old => (⟨c.post_id, c.body, old.created_at⟩ : CommentFields)) h

/-- C1: the join endpoints behave in exactly three cases — a non-empty join
yields the parent's fields plus the list of its children; an empty join
with an existing parent yields the parent with an empty children list; an
absent parent yields 404 (stated for both posts-by-user and
comments-by-post). -/
theorem C1_join_three_cases (db : DB) (hwf : db.WF) (uid pid : Nat) :
    ((userPostsJoin db uid ≠ [] →
        ∃ u, db.users.selectById uid = some u ∧
          get_user_posts db uid =
            .ok ⟨⟨uid, u.2.name, u.2.email⟩, postsOfUser db uid⟩) ∧
     (∀ u, userPostsJoin db uid = [] → db.users.selectById uid = some u →
        get_user_posts db uid = .ok ⟨⟨u.1, u.2.name, u.2.email⟩, []⟩) ∧
     (db.users.selectById uid = none →
        get_user_posts db uid = .error ⟨404, "User not found"⟩)) ∧
    ((postCommentsJoin db pid ≠ [] →
        ∃ p, db.posts.selectById pid = some p ∧
          get_post_comments db pid =
            .ok ⟨⟨pid, p.2.user_id, p.2.title, p.2.body⟩, commentsOfPost db pid⟩) ∧
     (∀ p, postCommentsJoin db pid = [] → db.posts.selectById pid = some p →
        get_post_comments db pid =
          .ok ⟨⟨p.1, p.2.user_id, p.2.title, p.2.body⟩, []⟩) ∧
     (db.posts.selectById pid = none →
        get_post_comments db pid = .error ⟨404, "Post not found"⟩)) := by
  refine ⟨⟨?_, ?_, ?_⟩, ⟨?_, ?_, ?_⟩⟩
  · intro hne
    cases hsel : db.users.selectById uid with
    | none => exact absurd (userPostsJoin_eq_nil db uid hsel) hne
    | some u =>
      refine ⟨u, rfl, ?_⟩
      have hj := userPostsJoin_eq_map db uid u hwf.1.1 hsel
      cases hjl : userPostsJoin db uid with
      | nil => exact absurd hjl hne
      | cons r rs =>
        rw [hjl] at hj
        have hrmem : r ∈ (db.posts.rows.filter (fun p => p.2.user_id == uid)).map
            (fun p => (⟨p.1, p.2.title, p.2.body, u.2.name, u.2.email⟩ :
              UserPostsJoinRow)) := by
          rw [← hj]
          exact List.mem_cons_self r rs
        obtain ⟨p, hp, hgp⟩ := List.mem_map.mp hrmem
        have hname : r.name = u.2.name := by rw [← hgp]
        have hemail : r.email = u.2.email := by rw [← hgp]
        have hchild : (r :: rs).map
            (fun x => (⟨x.post_id, x.title, x.body⟩ : PostChild)) =
            postsOfUser db uid := by
          rw [hj, List.map_map]
          rfl
        simp only [get_user_posts, hjl]
        rw [hname, hemail, hchild]
  · intro u hjl hsel
    simp only [get_user_posts, hjl, hsel]
  · intro hsel
    have hjl := userPostsJoin_eq_nil db uid hsel
    simp only [get_user_posts, hjl, hsel]
  · intro hne
    cases hsel : db.posts.selectById pid with
    | none => exact absurd (postCommentsJoin_eq_nil db pid hsel) hne
    | some p =>
      refine ⟨p, rfl, ?_⟩
      have hp1 : p.1 = pid := by simpa using List.find?_some hsel
      have hj := postCommentsJoin_eq_map db pid p hwf.2.1.1 hsel
      cases hjl : postCommentsJoin db pid with
      | nil => exact absurd hjl hne
      | cons r rs =>
        rw [hjl] at hj
        have hrmem : r ∈ (db.comments.rows.filter
            (fun x => x.2.post_id == pid)).map
            (fun x => (⟨p.1, p.2.user_id, p.2.title, p.2.body, x.1, x.2.body,
              x.2.created_at⟩ : PostCommentsJoinRow)) := by
          rw [← hj]
          exact List.mem_cons_self r rs
        obtain ⟨x, hx, hgx⟩ := List.mem_map.mp hrmem
        have hrpid : r.post_id = p.1 := by rw [← hgx]
        have hruid : r.user_id = p.2.user_id := by rw [← hgx]
        have hrtitle : r.title = p.2.title := by rw [← hgx]
        have hrbody : r.post_body = p.2.body := by rw [← hgx]
        have hchild : (r :: rs).map
            (fun x => (⟨x.comment_id, x.comment_body, x.created_at⟩ :
              CommentChild)) = commentsOfPost db pid := by
          rw [hj, List.map_map]
          rfl
        simp only [get_post_comments, hjl]
        rw [hrpid, hruid, hrtitle, hrbody, hchild, hp1]
  · intro p hjl hsel
    simp only [get_post_comments, hjl, hsel]
  · intro hsel
    have hjl := postCommentsJoin_eq_nil db pid hsel
    simp only [get_post_comments, hjl, hsel]

/-- Every request preserves well-formedness and the refinement to the
reference model. -/
theorem invariant_applyEvent (db : DB) (s : SpecDB) (hwf : db.WF)
    (habs : DBAbs db s) (e : Event) :
    (applyEvent db e).WF ∧ DBAbs (applyEvent db e) (specStep s e) := by
  obtain ⟨hau, hap, hac, hnu, hnp, hnc⟩ := habs
  cases e with
  | createUser u =>
    refine ⟨⟨Table.WF_insertRow db.users hwf.1 _, hwf.2.1, hwf.2.2⟩,
      ?_, hap, hac, ?_, hnp, hnc⟩
    · have h := Table.abs_insertRow db.users s.users hwf.1 hau ⟨u.name, u.email⟩
      rw [hnu] at h
      exact h
    · show db.users.nextId + 1 = s.nextUser + 1
      rw [hnu]
  | updateUser i u =>
    have heq : applyEvent db (Event.updateUser i u) =
        { db with users := ⟨db.users.rows.map
            (fun r => if r.1 == i then (i, ⟨u.name, u.email⟩) else r),
          db.users.nextId⟩ } := by
      show (update_user db i u).1 = _
      rw [update_user_def]
    rw [heq]
    exact ⟨⟨WF_map_rewrite db.users hwf.1 i
        (fun _ => ⟨u.name, u.email⟩), hwf.2.1, hwf.2.2⟩,
      abs_map_rewrite db.users.rows s.users hau i
        (fun _ => ⟨u.name, u.email⟩), hap, hac, hnu, hnp, hnc⟩
  | deleteUser i =>
    have heq : applyEvent db (Event.deleteUser i) =
        { db with users := ⟨db.users.rows.filter (fun r => r.1 != i),
          db.users.nextId⟩ } := by
      show (delete_user db i).1 = _
      rw [delete_user_def]
    rw [heq]
    exact ⟨⟨WF_filter_ne db.users hwf.1 i, hwf.2.1, hwf.2.2⟩,
      abs_filter_ne db.users.rows s.users hau i, hap, hac, hnu, hnp, hnc⟩
  | createPost p =>
    refine ⟨⟨hwf.1, Table.WF_insertRow db.posts hwf.2.1 _, hwf.2.2⟩,
      hau, ?_, hac, hnu, ?_, hnc⟩
    · have h := Table.abs_insertRow db.posts s.posts hwf.2.1 hap
        ⟨p.user_id, p.title, p.body⟩
      rw [hnp] at h
      exact h
    · show db.posts.nextId + 1 = s.nextPost + 1
      rw [hnp]
  | updatePost i p =>
    have heq : applyEvent db (Event.updatePost i p) =
        { db with posts := ⟨db.posts.rows.map
            (fun r => if r.1 == i then (i, ⟨p.user_id, p.title, p.body⟩) else r),
          db.posts.nextId⟩ } := by
      show (update_post db i p).1 = _
      rw [update_post_def]
    rw [heq]
    exact ⟨⟨hwf.1, WF_map_rewrite db.posts hwf.2.1 i
        (fun _ => ⟨p.user_id, p.title, p.body⟩), hwf.2.2⟩,
      hau, abs_map_rewrite db.posts.rows s.posts hap i
        (fun _ => ⟨p.user_id, p.title, p.body⟩), hac, hnu, hnp, hnc⟩
  | deletePost i =>
    have heq : applyEvent db (Event.deletePost i) =
        { db with posts := ⟨db.posts.rows.filter (fun r => r.1 != i),
          db.posts.nextId⟩ } := by
      show (delete_post db i).1 = _
      rw [delete_post_def]
    rw [heq]
    exact ⟨⟨hwf.1, WF_filter_ne db.posts hwf.2.1 i, hwf.2.2⟩,
      hau, abs_filter_ne db.posts.rows s.posts hap i, hac, hnu, hnp, hnc⟩
  | createComment c now =>
    refine ⟨⟨hwf.1, hwf.2.1, Table.WF_insertRow db.comments hwf.2.2 _⟩,
      hau, hap, ?_, hnu, hnp, ?_⟩
    · have h := Table.abs_insertRow db.comments s.comments hwf.2.2 hac
        ⟨c.post_id, c.body, now⟩
      rw [hnc] at h
      exact h
    · show db.comments.nextId + 1 = s.nextComment + 1
      rw [hnc]
  | updateComment i c =>
    have heq : applyEvent db (Event.updateComment i c) =
        { db with comments := ⟨db.comments.rows.map
            (fun r => if r.1 == i then (i, ⟨c.post_id, c.body, r.2.created_at⟩)
             else r),
          db.comments.nextId⟩ } := by
      show (update_comment db i c).1 = _
      rw [update_comment_def]
    rw [heq]
    exact ⟨⟨hwf.1, hwf.2.1, WF_map_rewrite db.comments hwf.2.2 i
        (fun old => ⟨c.post_id, c.body, old.created_at⟩)⟩,
      hau, hap, abs_map_rewrite db.comments.rows s.comments hac i
        (fun old => ⟨c.post_id, c.body, old.created_at⟩), hnu, hnp, hnc⟩
  | deleteComment i =>
    have heq : applyEvent db (Event.deleteComment i) =
        { db with comments := ⟨db.comments.rows.filter (fun r => r.1 != i),
          db.comments.nextId⟩ } := by
      show (delete_comment db i).1 = _
      rw [delete_comment_def]
    rw [heq]
    exact ⟨⟨hwf.1, hwf.2.1, WF_filter_ne db.comments hwf.2.2 i⟩,
      hau, hap, abs_filter_ne db.comments.rows s.comments hac i, hnu, hnp, hnc⟩

theorem invariant_foldl (es : List Event) :
    ∀ db s, db.WF → DBAbs db s →
      (es.foldl applyEvent db).WF ∧
        DBAbs (es.foldl applyEvent db) (es.foldl specStep s) := by
  induction es with
  | nil => exact fun db s h1 h2 => ⟨h1, h2⟩
  | cons e es ih =>
    intro db s h1 h2
    have h := invariant_applyEvent db s h1 h2 e
    exact ih _ _ h.1 h.2

theorem invariant_applyEvents (es : List Event) :
    (applyEvents es).WF ∧ DBAbs (applyEvents es) (specOf es) := by
  have hwf0 : DB.empty.WF := by
    refine ⟨⟨?_, ?_⟩, ⟨?_, ?_⟩, ⟨?_, ?_⟩⟩ <;> simp [DB.empty, Table.empty]
  have habs0 : DBAbs DB.empty SpecDB.empty := by
    refine ⟨?_, ?_, ?_, rfl, rfl, rfl⟩ <;> intro i b <;>
      simp [DB.empty, Table.empty, SpecDB.empty]
  exact invariant_foldl es DB.empty SpecDB.empty hwf0 habs0

theorem mem_list_users_iff (db : DB) (s : SpecDB) (habs : DBAbs db s)
    (o : UserOut) :
    o ∈ list_users db ↔ s.users o.id = some ⟨o.name, o.email⟩ := by
  rw [list_users, List.mem_map]
  constructor
  · rintro ⟨r, hr, hro⟩
    have h := (habs.1 r.1 r.2).mp (by simpa using hr)
    rw [← hro]
    exact h
  · intro h
    exact ⟨(o.id, ⟨o.name, o.email⟩), (habs.1 o.id ⟨o.name, o.email⟩).mpr h, rfl⟩

theorem mem_list_posts_iff (db : DB) (s : SpecDB) (habs : DBAbs db s)
    (o : PostOut) :
    o ∈ list_posts db ↔ s.posts o.id = some ⟨o.user_id, o.title, o.body⟩ := by
  rw [list_posts, List.mem_map]
  constructor
  · rintro ⟨r, hr, hro⟩
    have h := (habs.2.1 r.1 r.2).mp (by simpa using hr)
    rw [← hro]
    exact h
  · intro h
    exact ⟨(o.id, ⟨o.user_id, o.title, o.body⟩),
      (habs.2.1 o.id ⟨o.user_id, o.title, o.body⟩).mpr h, rfl⟩

theorem mem_list_comments_iff (db : DB) (s : SpecDB) (habs : DBAbs db s)
    (o : CommentOut) :
    o ∈ list_comments db ↔
      s.comments o.id = some ⟨o.post_id, o.body, o.created_at⟩ := by
  rw [list_comments, List.mem_map]
  constructor
  · rintro ⟨r, hr, hro⟩
    have h := (habs.2.2.1 r.1 r.2).mp (by simpa using hr)
    rw [← hro]
    exact h
  · intro h
    exact ⟨(o.id, ⟨o.post_id, o.body, o.created_at⟩),
      (habs.2.2.1 o.id ⟨o.post_id, o.body, o.created_at⟩).mpr h, rfl⟩

/-- C7: after any trace of mutating requests starting from the freshly
initialized database, each resource's List endpoint returns exactly the
rows bound in the reference map — the set of created and not-yet-deleted
rows (carrying their latest updated fields), independently of row order. -/
theorem C7_list_reflects_created_not_deleted (es : List Event) :
    (∀ o : UserOut, o ∈ list_users (applyEvents es) ↔
      (specOf es).users o.id = some ⟨o.name, o.email⟩) ∧
    (∀ o : PostOut, o ∈ list_posts (applyEvents es) ↔
      (specOf es).posts o.id = some ⟨o.user_id, o.title, o.body⟩) ∧
    (∀ o : CommentOut, o ∈ list_comments (applyEvents es) ↔
      (specOf es).comments o.id = some ⟨o.post_id, o.body, o.created_at⟩) := by
  have h := invariant_applyEvents es
  exact ⟨mem_list_users_iff _ _ h.2, mem_list_posts_iff _ _ h.2,
    mem_list_comments_iff _ _ h.2⟩

/-! ### Startup initializer lemmas -/

theorem lifespanLoop_all_fail (ok : Nat → Bool) (script : String) :
    ∀ fuel a, (∀ j, j < fuel → ok (a + j) = false) →
      lifespanLoop ok script fuel a = ⟨none, a + fuel, a + fuel, true⟩ := by
  intro fuel
  induction fuel with
  | zero =>
    intro a h
    simp [lifespanLoop]
  | succ n ih =>
    intro a h
    have h0 : ok a = false := by simpa using h 0 (Nat.succ_pos n)
    have hrec := ih (a + 1) (fun j hj => by
      have hj1 := h (j + 1) (by omega)
      have he : a + (j + 1) = a + 1 + j := by omega
      rw [he] at hj1
      exact hj1)
    have hadd : a + 1 + n = a + (n + 1) := by omega
    simp only [lifespanLoop, h0]
    rw [if_neg (by simp), hrec, hadd]

theorem lifespanLoop_first_success (ok : Nat → Bool) (script : String) :
    ∀ k fuel a, k < fuel → (∀ j, j < k → ok (a + j) = false) →
      ok (a + k) = true →
      lifespanLoop ok script fuel a =
        ⟨some (splitStatements script), a + k + 1, a + k, true⟩ := by
  intro k
  induction k with
  | zero =>
    intro fuel a hk hfail hsucc
    cases fuel with
    | zero => omega
    | succ n =>
      have h0 : ok a = true := by simpa using hsucc
      simp [lifespanLoop, h0]
  | succ m ih =>
    intro fuel a hk hfail hsucc
    cases fuel with
    | zero => omega
    | succ n =>
      have h0 : ok a = false := by simpa using hfail 0 (Nat.succ_pos m)
      have hrec := ih n (a + 1) (by omega)
        (fun j hj => by
          have hj1 := hfail (j + 1) (by omega)
          have he : a + (j + 1) = a + 1 + j := by omega
          rw [he] at hj1
          exact hj1)
        (by
          have he : a + (m + 1) = a + 1 + m := by omega
          rw [he] at hsucc
          exact hsucc)
      have he1 : a + 1 + m = a + (m + 1) := by omega
      simp only [lifespanLoop, h0]
      rw [if_neg (by simp), hrec, he1]

theorem lifespanLoop_attempts_le (ok : Nat → Bool) (script : String) :
    ∀ fuel a, (lifespanLoop ok script fuel a).attempts ≤ a + fuel := by
  intro fuel
  induction fuel with
  | zero =>
    intro a
    simp [lifespanLoop]
  | succ n ih =>
    intro a
    by_cases h : ok a = true
    · simp [lifespanLoop, h]
    · rw [Bool.not_eq_true] at h
      simp only [lifespanLoop, h]
      rw [if_neg (by simp)]
      have hrec := ih (a + 1)
      have he : a + 1 + n = a + (n + 1) := by omega
      rw [he] at hrec
      exact hrec

theorem lifespanLoop_serving (ok : Nat → Bool) (script : String) :
    ∀ fuel a, (lifespanLoop ok script fuel a).serving = true := by
  intro fuel
  induction fuel with
  | zero =>
    intro a
    simp [lifespanLoop]
  | succ n ih =>
    intro a
    by_cases h : ok a = true
    · simp [lifespanLoop, h]
    · rw [Bool.not_eq_true] at h
      simp only [lifespanLoop, h]
      rw [if_neg (by simp)]
      exact ih (a + 1)

/-- C8: the startup initializer makes at most 30 connection attempts with a
fixed one-second wait after each failure; on the first successful attempt
(index `k`) it executes exactly the non-empty trimmed statements of the
schema script split on the terminator, and makes no further attempts
(`k + 1` attempts, `k` waits); if every attempt fails it executes nothing
after 30 attempts; and in every case the process goes on to serve
requests. -/
theorem C8_startup_initializer (ok1 ok2 : Nat → Bool) (script : String)
    (k : Nat) (hk : k < 30)
    (hfail : ∀ j, j < k → ok1 j = false) (hsucc : ok1 k = true)
    (hall : ∀ j, j < 30 → ok2 j = false) :
    lifespan ok1 script = ⟨some (splitStatements script), k + 1, k, true⟩ ∧
    lifespan ok2 script = ⟨none, 30, 30, true⟩ ∧
    (∀ ok : Nat → Bool, (lifespan ok script).attempts ≤ 30 ∧
      (lifespan ok script).serving = true) := by
  refine ⟨?_, ?_, fun ok => ⟨?_, ?_⟩⟩
  · have h := lifespanLoop_first_success ok1 script k 30 0 hk
      (fun j hj => by simpa using hfail j hj) (by simpa using hsucc)
    simpa [lifespan] using h
  · have h := lifespanLoop_all_fail ok2 script 30 0
      (fun j hj => by simpa using hall j hj)
    simpa [lifespan] using h
  · simpa [lifespan] using lifespanLoop_attempts_le ok script 30 0
  · exact lifespanLoop_serving ok script 30 0

theorem C8_witness :
    lifespan (fun j => j == 2) "CREATE TABLE a (x INT); " =
      ⟨some (splitStatements "CREATE TABLE a (x INT); "), 3, 2, true⟩ ∧
    lifespan (fun _ => false) "x" = ⟨none, 30, 30, true⟩ := by
  have h := C8_startup_initializer (fun j => j == 2) (fun _ => false)
    "CREATE TABLE a (x INT); " 2 (by omega)
    (fun j hj => by interval_cases j <;> rfl) rfl (fun j hj => rfl)
  exact ⟨h.1, h.2.1⟩

/-- C9: the request-scoped connection opened by the `get_db` dependency is
released when the request ends, on the normal-return branch and on the
raising branch alike (404 paths included), without altering the handler's
outcome. -/
theorem C9_connection_released (ρ : Type)
    (handler : DB → Except HTTPException ρ) (db : DB) :
    (get_db handler db).connClosed = true ∧
    (get_db handler db).response = handler db := by
  cases h : handler db with
  | ok r => simp [get_db, h]
  | error e => simp [get_db, h]

theorem C1_witness :
    get_user_posts dbSample 1 =
      .ok ⟨⟨1, "Ann", "a@x.com"⟩, [⟨1, "Hi", "B"⟩]⟩ ∧
    get_user_posts dbSample 99 = .error ⟨404, "User not found"⟩ ∧
    get_post_comments dbSample 1 = .ok ⟨⟨1, 1, "Hi", "B"⟩, []⟩ := by
  have h := C1_join_three_cases dbSample dbSample_WF 1 1
  have h99 := C1_join_three_cases dbSample dbSample_WF 99 99
  refine ⟨?_, ?_, ?_⟩
  · obtain ⟨u, hu, hres⟩ := h.1.1 (by decide)
    have hueq : some u = some ((1 : Nat),
        (⟨"Ann", "a@x.com"⟩ : UserFields)) := by
      rw [← hu]
      rfl
    rw [Option.some.inj hueq] at hres
    rw [hres]
    rfl
  · exact h99.1.2.2 rfl
  · exact h.2.2.1 ((1 : Nat), (⟨1, "Hi", "B"⟩ : PostFields)) rfl rfl

/-- C2: for every valid Create input (users, posts, comments), fetching the
id returned by Create via the corresponding Get-by-id endpoint yields a row
whose fields equal the fields submitted to Create (for comments the
database-assigned `created_at` is the insert-time clock value). -/
theorem C2_create_then_get_roundtrip (db : DB) (hwf : db.WF)
    (u : UserCreate) (p : PostCreate) (c : CommentCreate) (now : Nat) :
    get_user (create_user db u).1 (create_user db u).2.id =
      .ok ⟨(create_user db u).2.id, u.name, u.email⟩ ∧
    get_post (create_post db p).1 (create_post db p).2.id =
      .ok ⟨(create_post db p).2.id, p.user_id, p.title, p.body⟩ ∧
    get_comment (create_comment db c now).1 (create_comment db c now).2.id =
      .ok ⟨(create_comment db c now).2.id, c.post_id, c.body, now⟩ := by
  refine ⟨?_, ?_, ?_⟩
  · have hfresh : ∀ r ∈ db.users.rows, r.1 ≠ db.users.nextId :=
      fun r hr => Nat.ne_of_lt (hwf.1.2 r hr)
    simp only [create_user, get_user, Table.selectById, Table.insertRow]
    rw [find?_key_append_fresh _ _ _ hfresh]
  · have hfresh : ∀ r ∈ db.posts.rows, r.1 ≠ db.posts.nextId :=
      fun r hr => Nat.ne_of_lt (hwf.2.1.2 r hr)
    simp only [create_post, get_post, Table.selectById, Table.insertRow]
    rw [find?_key_append_fresh _ _ _ hfresh]
  · have hfresh : ∀ r ∈ db.comments.rows, r.1 ≠ db.comments.nextId :=
      fun r hr => Nat.ne_of_lt (hwf.2.2.2 r hr)
    simp only [create_comment, get_comment, Table.selectById, Table.insertRow]
    rw [find?_key_append_fresh _ _ _ hfresh]

theorem C2_witness :
    get_user (create_user dbSample ⟨"Bob", "b@x.com"⟩).1 2 =
      .ok ⟨2, "Bob", "b@x.com"⟩ := by
  have h := (C2_create_then_get_roundtrip dbSample dbSample_WF
    ⟨"Bob", "b@x.com"⟩ ⟨1, "T", "B"⟩ ⟨1, "C"⟩ 7).1
  simpa using h

/-- C3: for every id holding no row (never created or previously deleted),
Get-by-id, Update-by-id and Delete-by-id fail with 404 on every resource. -/
theorem C3_absent_id_not_found (db : DB) (i : Nat)
    (u : UserCreate) (p : PostCreate) (c : CommentCreate)
    (hu : ∀ b, (i, b) ∉ db.users.rows)
    (hp : ∀ b, (i, b) ∉ db.posts.rows)
    (hc : ∀ b, (i, b) ∉ db.comments.rows) :
    get_user db i = .error ⟨404, "User not found"⟩ ∧
    (update_user db i u).2 = .error ⟨404, "User not found"⟩ ∧
    (delete_user db i).2 = .error ⟨404, "User not found"⟩ ∧
    get_post db i = .error ⟨404, "Post not found"⟩ ∧
    (update_post db i p).2 = .error ⟨404, "Post not found"⟩ ∧
    (delete_post db i).2 = .error ⟨404, "Post not found"⟩ ∧
    get_comment db i = .error ⟨404, "Comment not found"⟩ ∧
    (update_comment db i c).2 = .error ⟨404, "Comment not found"⟩ ∧
    (delete_comment db i).2 = .error ⟨404, "Comment not found"⟩ := by
  have hu0 := countP_key_eq_zero_of_not_mem _ _ hu
  have hp0 := countP_key_eq_zero_of_not_mem _ _ hp
  have hc0 := countP_key_eq_zero_of_not_mem _ _ hc
  refine ⟨?_, ?_, ?_, ?_, ?_, ?_, ?_, ?_, ?_⟩
  · simp [get_user, Table.selectById, find?_key_eq_none_of_not_mem _ _ hu]
  · simp [update_user, Table.updateById, hu0]
  · simp [delete_user, Table.deleteById, hu0]
  · simp [get_post, Table.selectById, find?_key_eq_none_of_not_mem _ _ hp]
  · simp [update_post, Table.updateById, hp0]
  · simp [delete_post, Table.deleteById, hp0]
  · simp [get_comment, Table.selectById, find?_key_eq_none_of_not_mem _ _ hc]
  · simp [update_comment, hc0]
  · simp [delete_comment, Table.deleteById, hc0]

theorem C3_witness :
    get_user dbSample 99 = .error ⟨404, "User not found"⟩ ∧
    (update_post dbSample 99 ⟨1, "T", "B"⟩).2 = .error ⟨404, "Post not found"⟩ ∧
    (delete_comment dbSample 99).2 = .error ⟨404, "Comment not found"⟩ := by
  have h := C3_absent_id_not_found dbSample 99 ⟨"X", "Y"⟩ ⟨1, "T", "B"⟩ ⟨1, "C"⟩
    (by intro b hb; simp [dbSample] at hb)
    (by intro b hb; simp [dbSample] at hb)
    (by intro b hb; simp [dbSample] at hb)
  exact ⟨h.1, h.2.2.2.2.1, h.2.2.2.2.2.2.2.2⟩

/-- C4: Update is idempotent — when an Update succeeds, running the very
same Update again on the resulting state produces the same stored state and
the same response (stated for all three resources). -/
theorem C4_update_idempotent (db1 db2 db3 : DB) (i1 i2 i3 : Nat)
    (u : UserCreate) (p : PostCreate) (c : CommentCreate)
    (h1 : (update_user db1 i1 u).2.isOk = true)
    (h2 : (update_post db2 i2 p).2.isOk = true)
    (h3 : (update_comment db3 i3 c).2.isOk = true) :
    update_user (update_user db1 i1 u).1 i1 u = update_user db1 i1 u ∧
    update_post (update_post db2 i2 p).1 i2 p = update_post db2 i2 p ∧
    update_comment (update_comment db3 i3 c).1 i3 c = update_comment db3 i3 c := by
  refine ⟨?_, ?_, ?_⟩
  · rw [update_user_def db1 i1 u, update_user_def]
    dsimp only
    rw [countP_key_map_constU, map_key_const_idemU]
  · rw [update_post_def db2 i2 p, update_post_def]
    dsimp only
    rw [countP_key_map_constP, map_key_const_idemP]
  · rw [update_comment_def db3 i3 c, update_comment_def]
    dsimp only
    rw [countP_key_map_comment, map_key_comment_idem]

theorem C4_witness :
    update_user (update_user dbSample 1 ⟨"Zoe", "z@x.com"⟩).1 1 ⟨"Zoe", "z@x.com"⟩ =
      update_user dbSample 1 ⟨"Zoe", "z@x.com"⟩ := by
  have h := C4_update_idempotent dbSample dbSample dbSample2 1 1 1
    ⟨"Zoe", "z@x.com"⟩ ⟨1, "T2", "B2"⟩ ⟨1, "C2"⟩ rfl rfl rfl
  exact h.1

/-- C5: Delete is not idempotent — after a successful Delete, deleting the
same id again fails with 404 (stated for all three resources). -/
theorem C5_delete_not_idempotent (db1 db2 db3 : DB) (i1 i2 i3 : Nat)
    (h1 : (delete_user db1 i1).2.isOk = true)
    (h2 : (delete_post db2 i2).2.isOk = true)
    (h3 : (delete_comment db3 i3).2.isOk = true) :
    (delete_user (delete_user db1 i1).1 i1).2 = .error ⟨404, "User not found"⟩ ∧
    (delete_post (delete_post db2 i2).1 i2).2 = .error ⟨404, "Post not found"⟩ ∧
    (delete_comment (delete_comment db3 i3).1 i3).2 =
      .error ⟨404, "Comment not found"⟩ := by
  refine ⟨?_, ?_, ?_⟩
  · rw [delete_user_def db1 i1, delete_user_def]
    dsimp only
    rw [if_pos (countP_key_filter_ne db1.users.rows i1)]
  · rw [delete_post_def db2 i2, delete_post_def]
    dsimp only
    rw [if_pos (countP_key_filter_ne db2.posts.rows i2)]
  · rw [delete_comment_def db3 i3, delete_comment_def]
    dsimp only
    rw [if_pos (countP_key_filter_ne db3.comments.rows i3)]

theorem C5_witness :
    (delete_user (delete_user dbSample 1).1 1).2 =
      .error ⟨404, "User not found"⟩ ∧
    (delete_comment (delete_comment dbSample2 1).1 1).2 =
      .error ⟨404, "Comment not found"⟩ := by
  have h := C5_delete_not_idempotent dbSample dbSample dbSample2 1 1 1 rfl rfl rfl
  exact ⟨h.1, h.2.2⟩

/-- C6: a successful Update responds with the id from the path and exactly
the submitted body fields, not values re-read from storage (stated for all
three resources; the comment echo carries no `created_at` at all). -/
theorem C6_update_echoes_submitted (db1 db2 db3 : DB) (i1 i2 i3 : Nat)
    (u : UserCreate) (p : PostCreate) (c : CommentCreate)
    (o1 : UserOut) (o2 : PostOut) (o3 : CommentEcho)
    (h1 : (update_user db1 i1 u).2 = .ok o1)
    (h2 : (update_post db2 i2 p).2 = .ok o2)
    (h3 : (update_comment db3 i3 c).2 = .ok o3) :
    o1 = ⟨i1, u.name, u.email⟩ ∧
    o2 = ⟨i2, p.user_id, p.title, p.body⟩ ∧
    o3 = ⟨i3, c.post_id, c.body⟩ := by
  rw [update_user_def] at h1
  rw [update_post_def] at h2
  rw [update_comment_def] at h3
  dsimp only at h1 h2 h3
  refine ⟨?_, ?_, ?_⟩
  · by_cases hc : db1.users.rows.countP (fun r => r.1 == i1) = 0
    · rw [if_pos hc] at h1
      simp at h1
    · rw [if_neg hc] at h1
      exact (Except.ok.inj h1).symm
  · by_cases hc : db2.posts.rows.countP (fun r => r.1 == i2) = 0
    · rw [if_pos hc] at h2
      simp at h2
    · rw [if_neg hc] at h2
      exact (Except.ok.inj h2).symm
  · by_cases hc : db3.comments.rows.countP (fun r => r.1 == i3) = 0
    · rw [if_pos hc] at h3
      simp at h3
    · rw [if_neg hc] at h3
      exact (Except.ok.inj h3).symm

theorem C6_witness :
    (update_user dbSample 1 ⟨"Zoe", "z@x.com"⟩).2 = .ok ⟨1, "Zoe", "z@x.com"⟩ ∧
    (update_comment dbSample2 1 ⟨1, "C2"⟩).2 = .ok ⟨1, 1, "C2"⟩ := by
  have h := C6_update_echoes_submitted dbSample dbSample dbSample2 1 1 1
    ⟨"Zoe", "z@x.com"⟩ ⟨1, "T2", "B2"⟩ ⟨1, "C2"⟩
    ⟨1, "Zoe", "z@x.com"⟩ ⟨1, 1, "T2", "B2"⟩ ⟨1, 1, "C2"⟩ rfl rfl rfl
  exact ⟨rfl, rfl⟩

/-- C10: a 404-failing Update or Delete (zero rows affected) leaves the
database state unchanged, even though the handler commits before the
row-count check (stated for all three resources and both operations). -/
theorem C10_failed_write_preserves_state (db1 db2 db3 db4 db5 db6 : DB)
    (i1 i2 i3 i4 i5 i6 : Nat)
    (u : UserCreate) (p : PostCreate) (c : CommentCreate)
    (e1 e2 e3 e4 e5 e6 : HTTPException)
    (h1 : (update_user db1 i1 u).2 = .error e1)
    (h2 : (update_post db2 i2 p).2 = .error e2)
    (h3 : (update_comment db3 i3 c).2 = .error e3)
    (h4 : (delete_user db4 i4).2 = .error e4)
    (h5 : (delete_post db5 i5).2 = .error e5)
    (h6 : (delete_comment db6 i6).2 = .error e6) :
    (update_user db1 i1 u).1 = db1 ∧
    (update_post db2 i2 p).1 = db2 ∧
    (update_comment db3 i3 c).1 = db3 ∧
    (delete_user db4 i4).1 = db4 ∧
    (delete_post db5 i5).1 = db5 ∧
    (delete_comment db6 i6).1 = db6 := by
  rw [update_user_def] at h1
  rw [update_post_def] at h2
  rw [update_comment_def] at h3
  rw [delete_user_def] at h4
  rw [delete_post_def] at h5
  rw [delete_comment_def] at h6
  dsimp only at h1 h2 h3 h4 h5 h6
  refine ⟨?_, ?_, ?_, ?_, ?_, ?_⟩
  · by_cases hc : db1.users.rows.countP (fun r => r.1 == i1) = 0
    · rw [update_user_def]
      dsimp only
      rw [map_key_const_eq_selfU db1.users.rows i1 _ hc]
    · rw [if_neg hc] at h1
      simp at h1
  · by_cases hc : db2.posts.rows.countP (fun r => r.1 == i2) = 0
    · rw [update_post_def]
      dsimp only
      rw [map_key_const_eq_selfP db2.posts.rows i2 _ hc]
    · rw [if_neg hc] at h2
      simp at h2
  · by_cases hc : db3.comments.rows.countP (fun r => r.1 == i3) = 0
    · rw [update_comment_def]
      dsimp only
      rw [map_key_comment_eq_self db3.comments.rows i3 _ hc]
    · rw [if_neg hc] at h3
      simp at h3
  · by_cases hc : db4.users.rows.countP (fun r => r.1 == i4) = 0
    · rw [delete_user_def]
      dsimp only
      rw [filter_ne_eq_self db4.users.rows i4 hc]
    · rw [if_neg hc] at h4
      simp at h4
  · by_cases hc : db5.posts.rows.countP (fun r => r.1 == i5) = 0
    · rw [delete_post_def]
      dsimp only
      rw [filter_ne_eq_self db5.posts.rows i5 hc]
    · rw [if_neg hc] at h5
      simp at h5
  · by_cases hc : db6.comments.rows.countP (fun r => r.1 == i6) = 0
    · rw [delete_comment_def]
      dsimp only
      rw [filter_ne_eq_self db6.comments.rows i6 hc]
    · rw [if_neg hc] at h6
      simp at h6

theorem C10_witness :
    (update_user dbSample 42 ⟨"X", "Y"⟩).1 = dbSample ∧
    (delete_post dbSample 42).1 = dbSample := by
  have h := C10_failed_write_preserves_state dbSample dbSample dbSample
    dbSample dbSample dbSample 42 42 42 42 42 42
    ⟨"X", "Y"⟩ ⟨1, "T", "B"⟩ ⟨1, "C"⟩
    ⟨404, "User not found"⟩ ⟨404, "Post not found"⟩ ⟨404, "Comment not found"⟩
    ⟨404, "User not found"⟩ ⟨404, "Post not found"⟩ ⟨404, "Comment not found"⟩
    rfl rfl rfl rfl rfl rfl
  exact ⟨h.1, h.2.2.2.2.1⟩
